import Mathlib

/-!
Verification of the AXON multi-provider LLM orchestration core.

Each definition is a shallow embedding of a function of the repository:
JavaScript numbers are modelled as `ℚ`, timestamps (`Date.now()`) as `ℕ`
passed explicitly, JS `Map`/`Set` as insertion-ordered association lists /
duplicate-free lists, thrown exceptions as `Except`, and the outcome of an
upstream provider call as an explicit oracle argument.
-/

namespace Axon

/-! ### JS helpers shared by several embeddings -/

/-- Decidable equality of `Except` results, used to evaluate embedded
functions at concrete inputs. -/
instance {ε α : Type} [DecidableEq ε] [DecidableEq α] : DecidableEq (Except ε α) :=
  fun x y =>
    match x, y with
    | .ok a, .ok b =>
      if h : a = b then .isTrue (by rw [h]) else .isFalse (by simp [h])
    | .error e, .error f =>
      if h : e = f then .isTrue (by rw [h]) else .isFalse (by simp [h])
    | .ok _, .error _ => .isFalse (by simp)
    | .error _, .ok _ => .isFalse (by simp)

/-- JS `Map.set`: overwrite the value of the (unique) binding of the key in
place when it exists, otherwise append the new binding at the end. -/
def jsMapSet {α β : Type} [DecidableEq α] : List (α × β) → α → β → List (α × β)
  | [], k, v => [(k, v)]
  | kv :: rest, k, v => if kv.1 = k then (k, v) :: rest else kv :: jsMapSet rest k v

/-- JS `Map.get` (association-list lookup; the first binding wins). -/
def jsMapGet {α β : Type} [DecidableEq α] : List (α × β) → α → Option β
  | [], _ => none
  | kv :: rest, k => if kv.1 = k then some kv.2 else jsMapGet rest k

/-- JS `Set.add`: append the element unless it is already present. -/
def jsSetAdd {α : Type} [DecidableEq α] (l : List α) (a : α) : List α :=
  if a ∈ l then l else l ++ [a]

theorem jsMapGet_jsMapSet_self {α β : Type} [DecidableEq α]
    (l : List (α × β)) (k : α) (v : β) : jsMapGet (jsMapSet l k v) k = some v := by
  induction l with
  | nil => simp [jsMapSet, jsMapGet]
  | cons kv rest ih =>
    by_cases h : kv.1 = k
    · simp [jsMapSet, jsMapGet, h]
    · simp [jsMapSet, jsMapGet, h, ih]

theorem mem_jsSetAdd {α : Type} [DecidableEq α] (l : List α) (a b : α)
    (h : a ∈ l) : a ∈ jsSetAdd l b := by
  unfold jsSetAdd
  by_cases hb : b ∈ l
  · simpa [hb]
  · simp [hb, List.mem_append, h]

theorem self_mem_jsSetAdd {α : Type} [DecidableEq α] (l : List α) (a : α) :
    a ∈ jsSetAdd l a := by
  unfold jsSetAdd
  by_cases ha : a ∈ l <;> simp [ha]

/-! ### Circuit breaker (src/backend/circuit-breaker.js) -/

/-- The three circuit states (`this.STATES`). -/
inductive BState
  | CLOSED
  | OPEN
  | HALF_OPEN
deriving DecidableEq, Repr

/-- Constructor options of `CircuitBreaker` (defaults: threshold 5,
resetTimeout 30000 ms, monitoringPeriod 60000 ms). -/
structure BreakerConfig where
  failureThreshold : ℕ
  resetTimeout : ℕ
  monitoringPeriod : ℕ
deriving DecidableEq, Repr

/-- Mutable fields of a `CircuitBreaker` instance. `nextAttempt` is `none`
until the breaker first trips (JS `null`). -/
structure CircuitBreaker where
  state : BState
  failures : ℕ
  successes : ℕ
  lastFailureTime : Option ℕ
  nextAttempt : Option ℕ
  requests : List (ℕ × Bool)
deriving DecidableEq, Repr

/-- A freshly constructed breaker: CLOSED with zeroed counters. -/
def CircuitBreaker.init : CircuitBreaker :=
  { state := .CLOSED, failures := 0, successes := 0,
    lastFailureTime := none, nextAttempt := none, requests := [] }

/-- `recordRequest(success)`: push the request and drop entries older than
the monitoring period. -/
def CircuitBreaker.recordRequest (cfg : BreakerConfig) (b : CircuitBreaker)
    (now : ℕ) (success : Bool) : CircuitBreaker :=
  let kept := (b.requests ++ [(now, success)]).filter
    (fun req => decide (now - req.1 < cfg.monitoringPeriod))
  { b with requests := kept }

/-- `trip()`: go to OPEN and arm `nextAttempt = Date.now() + resetTimeout`. -/
def CircuitBreaker.trip (cfg : BreakerConfig) (b : CircuitBreaker) (now : ℕ) :
    CircuitBreaker :=
  { b with state := .OPEN, nextAttempt := some (now + cfg.resetTimeout) }

/-- `onSuccess()`: zero the failure counter, close the circuit when it was
HALF_OPEN, count the success and record the request. -/
def CircuitBreaker.onSuccess (cfg : BreakerConfig) (b : CircuitBreaker)
    (now : ℕ) : CircuitBreaker :=
  let b := { b with failures := 0 }
  let b := if b.state = .HALF_OPEN then { b with state := .CLOSED } else b
  let b := { b with successes := b.successes + 1 }
  b.recordRequest cfg now true

/-- `onFailure()`: count the failure, record it, and trip the breaker when
the consecutive-failure count reaches the threshold. -/
def CircuitBreaker.onFailure (cfg : BreakerConfig) (b : CircuitBreaker)
    (now : ℕ) : CircuitBreaker :=
  let b := { b with failures := b.failures + 1, lastFailureTime := some now }
  let b := b.recordRequest cfg now false
  if b.failures ≥ cfg.failureThreshold then b.trip cfg now else b

/-- What one `execute` call produced. -/
inductive ExecOutcome
  | fallbackUsed
  | circuitOpenError
  | fnSuccess
  | fnError
deriving DecidableEq, Repr

/-- `execute(fn)`: when OPEN and still inside the timeout window, run the
registered fallback (or throw the circuit-open error) without touching `fn`;
otherwise move OPEN → HALF_OPEN and run `fn`, whose outcome is the oracle
`fnSucceeds`. The returned `Bool` says whether `fn` was invoked. -/
def CircuitBreaker.execute (cfg : BreakerConfig) (b : CircuitBreaker)
    (now : ℕ) (fnSucceeds : Bool) (hasFallback : Bool) :
    CircuitBreaker × ExecOutcome × Bool :=
  if b.state = .OPEN ∧ now < (b.nextAttempt.getD 0) then
    (b, if hasFallback then .fallbackUsed else .circuitOpenError, false)
  else
    let b := if b.state = .OPEN then { b with state := .HALF_OPEN } else b
    if fnSucceeds then (b.onSuccess cfg now, .fnSuccess, true)
    else (b.onFailure cfg now, .fnError, true)

/-- `reset()`: manual reset to a pristine CLOSED breaker. -/
def CircuitBreaker.reset (_b : CircuitBreaker) : CircuitBreaker :=
  { state := .CLOSED, failures := 0, successes := 0,
    lastFailureTime := none, nextAttempt := none, requests := [] }

/-- Run a list of `execute` calls, each given as
`(now, fnSucceeds, hasFallback)`; returns the final breaker together with
the outcome and fn-invoked flag of every call, in order. -/
def CircuitBreaker.execTrace (cfg : BreakerConfig) (b : CircuitBreaker) :
    List (ℕ × Bool × Bool) → CircuitBreaker × List (ExecOutcome × Bool)
  | [] => (b, [])
  | c :: cs =>
    let step := b.execute cfg c.1 c.2.1 c.2.2
    let rest := execTrace cfg step.1 cs
    (rest.1, (step.2.1, step.2.2) :: rest.2)

/-- States a breaker can be in at rest, starting from construction:
closed under `execute` (with any clock and oracle) and manual `reset`. -/
inductive CircuitBreaker.Reachable (cfg : BreakerConfig) : CircuitBreaker → Prop
  | init : Reachable cfg CircuitBreaker.init
  | step {b : CircuitBreaker} (now : ℕ) (fnSucceeds hasFallback : Bool) :
      Reachable cfg b → Reachable cfg (b.execute cfg now fnSucceeds hasFallback).1
  | reset {b : CircuitBreaker} : Reachable cfg b → Reachable cfg b.reset

/-- While OPEN inside the timeout window, `execute` leaves the breaker
untouched, never invokes `fn`, and produces the fallback or the error. -/
theorem execute_open_blocked (cfg : BreakerConfig) (b : CircuitBreaker)
    (now : ℕ) (fnSucceeds hasFallback : Bool)
    (hOpen : b.state = .OPEN) (hNow : now < b.nextAttempt.getD 0) :
    b.execute cfg now fnSucceeds hasFallback =
      (b, if hasFallback then .fallbackUsed else .circuitOpenError, false) := by
  unfold CircuitBreaker.execute
  simp [hOpen, hNow]

/-- Invariant of every reachable breaker: an OPEN breaker has at least
`failureThreshold` consecutive failures recorded, its `nextAttempt` is set,
and the breaker is never at rest in HALF_OPEN. -/
theorem reachable_invariant (cfg : BreakerConfig) (b : CircuitBreaker)
    (h : CircuitBreaker.Reachable cfg b) :
    (b.state = .OPEN → cfg.failureThreshold ≤ b.failures ∧ b.nextAttempt.isSome) ∧
      b.state ≠ .HALF_OPEN := by
  induction h with
  | init => simp [CircuitBreaker.init]
  | reset _ => simp [CircuitBreaker.reset]
  | @step b now fnSucceeds hasFallback _ ih =>
    unfold CircuitBreaker.execute
    by_cases hblock : b.state = .OPEN ∧ now < (b.nextAttempt.getD 0)
    · simpa [hblock] using ih
    · simp only [hblock, if_false]
      rcases hfn : fnSucceeds with _ | _
      · -- fn fails: onFailure may trip
        unfold CircuitBreaker.onFailure CircuitBreaker.trip CircuitBreaker.recordRequest
        by_cases hthr : b.failures + 1 ≥ cfg.failureThreshold
        · by_cases hOpen : b.state = .OPEN
          · simp [hOpen, hthr]
          · simp [hOpen, hthr]
        · by_cases hOpen : b.state = .OPEN
          · -- was OPEN and admitted: invariant gives failures ≥ threshold,
            -- so failures + 1 ≥ threshold, contradicting hthr
            exact absurd (Nat.le_succ_of_le (ih.1 hOpen).1) hthr
          · have hhalf := ih.2
            rcases hs : b.state with _ | _ | _
            · simp [hs, hthr]
            · exact absurd hs hOpen
            · exact absurd hs hhalf
      · -- fn succeeds: onSuccess closes
        unfold CircuitBreaker.onSuccess CircuitBreaker.recordRequest
        by_cases hOpen : b.state = .OPEN
        · simp [hOpen]
        · have hhalf := ih.2
          rcases hs : b.state with _ | _ | _
          · simp [hs]
          · exact absurd hs hOpen
          · exact absurd hs hhalf

/-- Any sequence of `execute` calls made strictly before `nextAttempt` on an
OPEN breaker leaves the breaker unchanged, never invokes the wrapped
function, and each call yields the fallback or the circuit-open error. -/
theorem execTrace_open_blocked (cfg : BreakerConfig) (b : CircuitBreaker)
    (T : ℕ) (calls : List (ℕ × Bool × Bool))
    (hOpen : b.state = .OPEN) (hNA : b.nextAttempt = some T)
    (hcalls : ∀ c ∈ calls, c.1 < T) :
    (CircuitBreaker.execTrace cfg b calls).1 = b ∧
      ∀ r ∈ (CircuitBreaker.execTrace cfg b calls).2,
        r.2 = false ∧ (r.1 = .fallbackUsed ∨ r.1 = .circuitOpenError) := by
  induction calls with
  | nil => simp [CircuitBreaker.execTrace]
  | cons c cs ih =>
    have hc : c.1 < b.nextAttempt.getD 0 := by
      rw [hNA]
      exact hcalls c (List.mem_cons_self c cs)
    have hstep := execute_open_blocked cfg b c.1 c.2.1 c.2.2 hOpen hc
    have ih' := ih (fun c' hc' => hcalls c' (List.mem_cons_of_mem c hc'))
    unfold CircuitBreaker.execTrace
    rw [hstep]
    refine ⟨ih'.1, ?_⟩
    intro r hr
    rcases List.mem_cons.mp hr with hhead | htail
    · subst hhead
      constructor
      · rfl
      · by_cases hf : c.2.2 <;> simp [hf]
    · exact ih'.2 r htail

/-- C3: once a breaker trips to OPEN at `tripTime`, every `execute` call made
before `tripTime + resetTimeout` leaves the breaker unchanged, never invokes
the wrapped function, and either runs the registered fallback or throws the
circuit-open error. -/
theorem breaker_open_blocks_until_reset_timeout
    (cfg : BreakerConfig) (b0 : CircuitBreaker) (tripTime : ℕ)
    (calls : List (ℕ × Bool × Bool))
    (hcalls : ∀ c ∈ calls, c.1 < tripTime + cfg.resetTimeout) :
    (b0.trip cfg tripTime).nextAttempt = some (tripTime + cfg.resetTimeout) ∧
    (CircuitBreaker.execTrace cfg (b0.trip cfg tripTime) calls).1 = b0.trip cfg tripTime ∧
      ∀ r ∈ (CircuitBreaker.execTrace cfg (b0.trip cfg tripTime) calls).2,
        r.2 = false ∧ (r.1 = .fallbackUsed ∨ r.1 = .circuitOpenError) := by
  refine ⟨rfl, ?_⟩
  exact execTrace_open_blocked cfg (b0.trip cfg tripTime)
    (tripTime + cfg.resetTimeout) calls rfl rfl hcalls

/-- Witness for the C3 theorem at a concrete tripped breaker and two blocked
calls inside the 30 s window. -/
theorem breaker_open_blocks_until_reset_timeout_witness :
    (∀ c ∈ ([(10, true, true), (30004, false, false)] : List (ℕ × Bool × Bool)),
        c.1 < 5 + (30000 : ℕ)) ∧
    ((CircuitBreaker.init.trip ⟨3, 30000, 60000⟩ 5).nextAttempt = some (5 + 30000) ∧
      (CircuitBreaker.execTrace ⟨3, 30000, 60000⟩
          (CircuitBreaker.init.trip ⟨3, 30000, 60000⟩ 5)
          [(10, true, true), (30004, false, false)]).1 =
        CircuitBreaker.init.trip ⟨3, 30000, 60000⟩ 5 ∧
      ∀ r ∈ (CircuitBreaker.execTrace ⟨3, 30000, 60000⟩
          (CircuitBreaker.init.trip ⟨3, 30000, 60000⟩ 5)
          [(10, true, true), (30004, false, false)]).2,
        r.2 = false ∧ (r.1 = .fallbackUsed ∨ r.1 = .circuitOpenError)) :=
  ⟨by decide,
   breaker_open_blocks_until_reset_timeout ⟨3, 30000, 60000⟩
     CircuitBreaker.init 5 [(10, true, true), (30004, false, false)] (by decide)⟩

/-- C4: a reachable OPEN breaker admitted after `nextAttempt` (the HALF_OPEN
probe): a successful probe closes the circuit and zeroes the
consecutive-failure counter; a failed probe reopens it with `nextAttempt`
re-armed to the failure time plus `resetTimeout`. -/
theorem breaker_half_open_probe_outcomes
    (cfg : BreakerConfig) (b : CircuitBreaker) (now : ℕ) (fb : Bool)
    (hreach : CircuitBreaker.Reachable cfg b)
    (hOpen : b.state = .OPEN) (hNow : b.nextAttempt.getD 0 ≤ now) :
    ((b.execute cfg now true fb).1.state = .CLOSED ∧
       (b.execute cfg now true fb).1.failures = 0 ∧
       (b.execute cfg now true fb).2.2 = true) ∧
    ((b.execute cfg now false fb).1.state = .OPEN ∧
       (b.execute cfg now false fb).1.nextAttempt = some (now + cfg.resetTimeout) ∧
       (b.execute cfg now false fb).2.2 = true) := by
  have hinv := (reachable_invariant cfg b hreach).1 hOpen
  have hblock : ¬ (b.state = .OPEN ∧ now < b.nextAttempt.getD 0) := by
    rintro ⟨_, hlt⟩
    exact absurd hNow (Nat.not_le_of_lt hlt)
  have hlt : ¬ now < b.nextAttempt.getD 0 := Nat.not_lt.mpr hNow
  constructor
  · unfold CircuitBreaker.execute
    simp only [hblock, if_false, hOpen, if_true, if_pos]
    unfold CircuitBreaker.onSuccess CircuitBreaker.recordRequest
    simp [hlt]
  · unfold CircuitBreaker.execute
    simp only [hblock, if_false, hOpen, if_true]
    unfold CircuitBreaker.onFailure CircuitBreaker.trip CircuitBreaker.recordRequest
    have hthr : b.failures + 1 ≥ cfg.failureThreshold :=
      Nat.le_succ_of_le hinv.1
    simp [hthr, hlt]

/-- Witness for the C4 theorem: a breaker tripped by one failure (threshold
1) is probed at the exact reopen time; both probe branches behave as
stated. -/
theorem breaker_half_open_probe_outcomes_witness :
    CircuitBreaker.Reachable ⟨1, 30000, 60000⟩
        (CircuitBreaker.execute ⟨1, 30000, 60000⟩ CircuitBreaker.init 0 false false).1 ∧
    (CircuitBreaker.execute ⟨1, 30000, 60000⟩ CircuitBreaker.init 0 false false).1.state = .OPEN ∧
    (CircuitBreaker.execute ⟨1, 30000, 60000⟩ CircuitBreaker.init 0 false false).1.nextAttempt.getD 0 ≤ 30000 ∧
    (((CircuitBreaker.execute ⟨1, 30000, 60000⟩ CircuitBreaker.init 0 false false).1.execute
          ⟨1, 30000, 60000⟩ 30000 true false).1.state = .CLOSED ∧
       ((CircuitBreaker.execute ⟨1, 30000, 60000⟩ CircuitBreaker.init 0 false false).1.execute
          ⟨1, 30000, 60000⟩ 30000 true false).1.failures = 0 ∧
       ((CircuitBreaker.execute ⟨1, 30000, 60000⟩ CircuitBreaker.init 0 false false).1.execute
          ⟨1, 30000, 60000⟩ 30000 true false).2.2 = true) ∧
    (((CircuitBreaker.execute ⟨1, 30000, 60000⟩ CircuitBreaker.init 0 false false).1.execute
          ⟨1, 30000, 60000⟩ 30000 false false).1.state = .OPEN ∧
       ((CircuitBreaker.execute ⟨1, 30000, 60000⟩ CircuitBreaker.init 0 false false).1.execute
          ⟨1, 30000, 60000⟩ 30000 false false).1.nextAttempt = some (30000 + 30000) ∧
       ((CircuitBreaker.execute ⟨1, 30000, 60000⟩ CircuitBreaker.init 0 false false).1.execute
          ⟨1, 30000, 60000⟩ 30000 false false).2.2 = true) :=
  ⟨CircuitBreaker.Reachable.step 0 false false CircuitBreaker.Reachable.init,
   by decide, by decide,
   (breaker_half_open_probe_outcomes ⟨1, 30000, 60000⟩ _ 30000 false
      (CircuitBreaker.Reachable.step 0 false false CircuitBreaker.Reachable.init)
      (by decide) (by decide)).1,
   (breaker_half_open_probe_outcomes ⟨1, 30000, 60000⟩ _ 30000 false
      (CircuitBreaker.Reachable.step 0 false false CircuitBreaker.Reachable.init)
      (by decide) (by decide)).2⟩

/-! ### Rate limiter (src/backend/llm-service.js, class RateLimiter) -/

/-- State of a `RateLimiter`. `limit` is `requestsPerMinute`; `refillRate`
is `requestsPerMinute / 60000` (tokens per millisecond). -/
structure RateLimiter where
  limit : ℕ
  burstSize : ℚ
  requests : List ℕ
  tokens : ℚ
  lastRefill : ℕ
  refillRate : ℚ
deriving DecidableEq, Repr

/-- `new RateLimiter(requestsPerMinute, burstSize = 10)`. -/
def RateLimiter.mkNew (requestsPerMinute : ℕ) (burstSize : ℚ := 10)
    (now : ℕ) : RateLimiter :=
  { limit := requestsPerMinute, burstSize := burstSize, requests := [],
    tokens := burstSize, lastRefill := now,
    refillRate := (requestsPerMinute : ℚ) / 60000 }

/-- Outcome of `checkLimit`: admitted, or rejected with the computed wait
time in milliseconds. -/
inductive RLOutcome
  | admitted
  | rejected (waitTime : ℚ)
deriving DecidableEq, Repr

/-- `checkLimit()`: refill by elapsed time (clamped to `burstSize`), drop
requests older than one minute, then admit on an available token
(decrementing the bucket), or — when the bucket is empty — admit anyway as
long as fewer than `limit` requests happened in the last minute, and only
otherwise throw the rate-limit error. The JS object is mutated before the
throw, so the new limiter state is returned in every case. -/
def RateLimiter.checkLimit (rl : RateLimiter) (now : ℕ) : RateLimiter × RLOutcome :=
  let timePassed : ℚ := (now : ℚ) - (rl.lastRefill : ℚ)
  let tokens1 := min rl.burstSize (rl.tokens + timePassed * rl.refillRate)
  let reqs1 := rl.requests.filter (fun time => decide (now - time < 60000))
  if 1 ≤ tokens1 then
    ({ rl with tokens := tokens1 - 1, lastRefill := now,
               requests := reqs1 ++ [now] }, .admitted)
  else if rl.limit ≤ reqs1.length then
    -- waitTime = 60000 - (now - oldestRequest) + 1000; with limit ≥ 1 the
    -- filtered list is nonempty here, so the `getD` default is never used
    let oldestRequest := (reqs1.min?).getD now
    ({ rl with tokens := tokens1, lastRefill := now, requests := reqs1 },
     .rejected (60000 - ((now : ℚ) - (oldestRequest : ℚ)) + 1000))
  else
    ({ rl with tokens := tokens1, lastRefill := now,
               requests := reqs1 ++ [now] }, .admitted)

/-- Counterexample to C2: a limiter with an empty bucket and an empty
one-minute request window still admits the call — without decrementing any
token — because the secondary requests-per-minute path accepts it. The
claim says such a call must fail with a rate-limit error. -/
theorem checkLimit_admits_without_token :
    (RateLimiter.checkLimit
        { limit := 500, burstSize := 10, requests := [], tokens := 0,
          lastRefill := 100, refillRate := 500 / 60000 } 100).2 = .admitted ∧
    (RateLimiter.checkLimit
        { limit := 500, burstSize := 10, requests := [], tokens := 0,
          lastRefill := 100, refillRate := 500 / 60000 } 100).1.tokens = 0 ∧
    ¬ (1 : ℚ) ≤ min (10 : ℚ) (0 + ((100 : ℚ) - 100) * (500 / 60000)) := by
  refine ⟨?_, ?_, by norm_num⟩ <;>
    · unfold RateLimiter.checkLimit
      norm_num

/-- C2 (amended): after refilling (clamped to capacity) and dropping
requests older than one minute, `checkLimit` admits iff at least one full
token is available (then the bucket is decremented by 1 and the request is
recorded) **or** the requests admitted in the last minute are fewer than
`limit` (then the bucket is not decremented); the rate-limit error is
thrown exactly when both conditions fail. -/
theorem checkLimit_admission_characterization (rl : RateLimiter) (now : ℕ) :
    ((rl.checkLimit now).2 = .admitted ↔
      (1 ≤ min rl.burstSize (rl.tokens + ((now : ℚ) - (rl.lastRefill : ℚ)) * rl.refillRate) ∨
        (rl.requests.filter (fun time => decide (now - time < 60000))).length < rl.limit)) ∧
    (1 ≤ min rl.burstSize (rl.tokens + ((now : ℚ) - (rl.lastRefill : ℚ)) * rl.refillRate) →
      (rl.checkLimit now).1.tokens =
        min rl.burstSize (rl.tokens + ((now : ℚ) - (rl.lastRefill : ℚ)) * rl.refillRate) - 1 ∧
      (rl.checkLimit now).1.requests =
        rl.requests.filter (fun time => decide (now - time < 60000)) ++ [now]) ∧
    (¬ 1 ≤ min rl.burstSize (rl.tokens + ((now : ℚ) - (rl.lastRefill : ℚ)) * rl.refillRate) →
      (rl.requests.filter (fun time => decide (now - time < 60000))).length < rl.limit →
      (rl.checkLimit now).1.tokens =
        min rl.burstSize (rl.tokens + ((now : ℚ) - (rl.lastRefill : ℚ)) * rl.refillRate) ∧
      (rl.checkLimit now).1.requests =
        rl.requests.filter (fun time => decide (now - time < 60000)) ++ [now]) := by
  unfold RateLimiter.checkLimit
  by_cases htok : 1 ≤ min rl.burstSize (rl.tokens + ((now : ℚ) - (rl.lastRefill : ℚ)) * rl.refillRate)
  · simp [htok]
  · by_cases hreq : rl.limit ≤ (rl.requests.filter (fun time => decide (now - time < 60000))).length
    · simp [htok, hreq, Nat.not_lt.mpr hreq]
    · simp [htok, hreq, Nat.lt_of_not_le hreq]

/-- Witness for the amended C2 theorem on a concrete limiter with a full
token available. -/
theorem checkLimit_admission_characterization_witness :
    (1 : ℚ) ≤ min (10 : ℚ) (10 + ((0 : ℚ) - (0 : ℚ)) * (500 / 60000)) ∧
    ((RateLimiter.mkNew 500 10 0).checkLimit 0).2 = .admitted :=
  ⟨by norm_num,
   ((checkLimit_admission_characterization (RateLimiter.mkNew 500 10 0) 0).1).mpr
     (Or.inl (by norm_num [RateLimiter.mkNew]))⟩

/-! ### Response cache (src/backend/cache-service.js) -/

/-- The data hashed by `generateKey`: model, the `(role, content)` pairs of
the messages, and the three sampling parameters. The SHA-256 digest is
modelled by the canonical data itself (the digest is injective on it). A
parameter the caller left `undefined` is absent from the JSON. -/
structure CacheKey where
  model : String
  messages : List (String × String)
  temperature : Option ℚ
  topP : Option ℚ
  maxTokens : Option ℚ
deriving DecidableEq, Repr

/-- `generateKey(model, messages, parameters)`. -/
def generateKey (model : String) (messages : List (String × String))
    (temperature topP maxTokens : Option ℚ) : CacheKey :=
  { model := model, messages := messages, temperature := temperature,
    topP := topP, maxTokens := maxTokens }

/-- A stored cache value: `{response, timestamp, lastAccess, model}`. -/
structure CacheEntry where
  response : String
  timestamp : ℕ
  lastAccess : ℕ
  model : String
deriving DecidableEq, Repr

/-- The `CacheService` instance state. -/
structure CacheService where
  entries : List (CacheKey × CacheEntry)
  ttl : ℕ
  maxSize : ℕ
  enabled : Bool
deriving DecidableEq, Repr

/-- JS `Map.delete`. -/
def jsMapDelete {α β : Type} [DecidableEq α] (l : List (α × β)) (k : α) :
    List (α × β) :=
  l.filter (fun kv => decide (kv.1 ≠ k))

/-- `get(model, messages, parameters)`: miss when disabled or absent;
lazily expire an entry older than the TTL; on a hit, refresh `lastAccess`
and return the stored response. -/
def CacheService.get (c : CacheService) (model : String)
    (messages : List (String × String)) (temperature topP maxTokens : Option ℚ)
    (now : ℕ) : Option String × CacheService :=
  if ¬ c.enabled then (none, c)
  else
    let key := generateKey model messages temperature topP maxTokens
    match jsMapGet c.entries key with
    | none => (none, c)
    | some cached =>
      if now - cached.timestamp > c.ttl then
        (none, { c with entries := jsMapDelete c.entries key })
      else
        (some cached.response,
         { c with entries := jsMapSet c.entries key { cached with lastAccess := now } })

/-- `evictLRU()`: delete the entry whose `lastAccess` is the oldest; the
scan starts from `oldestTime = Date.now()`, so nothing is evicted when all
entries were accessed at or after `now`. -/
def CacheService.evictLRU (c : CacheService) (now : ℕ) : CacheService :=
  let best := c.entries.foldl
    (fun acc kv => if kv.2.lastAccess < acc.2 then (some kv.1, kv.2.lastAccess) else acc)
    ((none : Option CacheKey), now)
  match best.1 with
  | some k => { c with entries := jsMapDelete c.entries k }
  | none => c

/-- `set(model, messages, parameters, response)`: no-op when disabled;
evict the LRU entry when at capacity; then store the response with fresh
timestamps. -/
def CacheService.set (c : CacheService) (model : String)
    (messages : List (String × String)) (temperature topP maxTokens : Option ℚ)
    (response : String) (now : ℕ) : CacheService :=
  if ¬ c.enabled then c
  else
    let key := generateKey model messages temperature topP maxTokens
    let c := if c.maxSize ≤ c.entries.length then c.evictLRU now else c
    let entry : CacheEntry :=
      { response := response, timestamp := now, lastAccess := now, model := model }
    { c with entries := jsMapSet c.entries key entry }

/-! ### LLM service (src/backend/llm-service.js, class LLMService) -/

/-- One `MODEL_CONFIGS` row: `{provider, apiName, contextWindow}`. -/
structure ModelConfig where
  provider : String
  apiName : String
  contextWindow : ℕ
deriving DecidableEq, Repr

/-- The `MODEL_CONFIGS` table. -/
def MODEL_CONFIGS : List (String × ModelConfig) :=
  [("gpt-4o", ⟨"openai", "gpt-4o", 128000⟩),
   ("gpt-4.5-research-preview", ⟨"openai", "gpt-4.5-research-preview", 128000⟩),
   ("gpt-4.1-latest", ⟨"openai", "gpt-4.1-latest", 128000⟩),
   ("o1-preview", ⟨"openai", "o1-preview", 128000⟩),
   ("o1-mini", ⟨"openai", "o1-mini", 128000⟩),
   ("o3-pro", ⟨"openai", "o3-pro", 256000⟩),
   ("o3-pro-deep-research", ⟨"openai", "o3-pro-deep-research", 256000⟩),
   ("o4-mini-deep-research", ⟨"openai", "o4-mini-deep-research", 128000⟩),
   ("claude-3-opus-20240229", ⟨"anthropic", "claude-3-opus-20240229", 200000⟩),
   ("claude-3-sonnet-20240229", ⟨"anthropic", "claude-3-sonnet-20240229", 200000⟩),
   ("claude-3-haiku-20240307", ⟨"anthropic", "claude-3-haiku-20240307", 200000⟩),
   ("claude-opus-4-20250514", ⟨"anthropic", "claude-opus-4-20250514", 200000⟩),
   ("claude-sonnet-4-20250514", ⟨"anthropic", "claude-sonnet-4-20250514", 200000⟩),
   ("gemini-1.5-pro", ⟨"google", "gemini-1.5-pro", 1000000⟩),
   ("gemini-1.5-flash", ⟨"google", "gemini-1.5-flash", 1000000⟩),
   ("gemini-2.5-pro", ⟨"google", "gemini-2.5-pro", 1000000⟩),
   ("gemini-2.5-flash", ⟨"google", "gemini-2.5-flash", 1000000⟩),
   ("gemini-2.0-flash", ⟨"google", "gemini-2.0-flash", 1000000⟩)]

/-- `getFallbackModel(model, provider)`: the static fallback table. -/
def FALLBACK_MODELS : List (String × String) :=
  [("gpt-4.5-research-preview", "gpt-4.1-latest"),
   ("gpt-4.1-latest", "gpt-4o"),
   ("o3-pro-deep-research", "o3-pro"),
   ("o3-pro", "gpt-4o"),
   ("o4-mini-deep-research", "o1-mini"),
   ("o1-preview", "gpt-4o"),
   ("claude-opus-4-20250514", "claude-sonnet-4-20250514"),
   ("claude-sonnet-4-20250514", "claude-3-opus-20240229"),
   ("claude-3-opus-20240229", "claude-3-sonnet-20240229"),
   ("gemini-2.5-pro", "gemini-2.5-flash"),
   ("gemini-2.5-flash", "gemini-2.0-flash"),
   ("gemini-2.0-flash", "gemini-1.5-pro"),
   ("gemini-1.5-pro", "gemini-1.5-flash")]

/-- `estimateTokenCount(messages)`: `Math.ceil(totalChars / 4)`. -/
def estimateTokenCount (messages : List (String × String)) : ℕ :=
  let totalChars := (messages.map (fun m => m.2.length)).sum
  (totalChars + 3) / 4

/-- Outcome of one provider-adapter invocation (the oracle's answer);
a failure carries the HTTP status used for retry classification. -/
inductive AdapterOutcome
  | success (content : String)
  | failure (status : ℕ)
deriving DecidableEq, Repr

/-- Errors `generateResponse` can surface. `fuelExhausted` is a modelling
artifact bounding the fallback recursion (the JS recursion terminates
because the static fallback chains are acyclic). -/
inductive GenError
  | modelNotSupported
  | rateLimited (waitTime : ℚ)
  | contextWindowExceeded (estimated limit : ℕ)
  | provider (status : ℕ)
  | circuitOpenNoFallback
  | fuelExhausted
deriving DecidableEq, Repr

/-- `retryWithBackoff(fn, maxRetries = 3)`: invoke the adapter (consuming
one oracle index per attempt); rethrow on the last attempt or on a
non-retryable status, otherwise back off and retry. Returns the result and
the next unconsumed oracle index. -/
def retryWithBackoff (oracle : ℕ → AdapterOutcome) (idx : ℕ) :
    ℕ → (Except ℕ String) × ℕ
  | 0 => (.error 0, idx)
  | n + 1 =>
    match oracle idx with
    | .success content => (.ok content, idx + 1)
    | .failure status =>
      if n = 0 then (.error status, idx + 1)
      else if status = 429 ∨ status = 500 ∨ status = 502 ∨ status = 503 ∨ status = 504 then
        retryWithBackoff oracle (idx + 1) n
      else (.error status, idx + 1)

/-- The agent configuration consumed by `generateResponse`:
`{model, parameters, prompt}` (only the cache-relevant parameters are
carried). -/
structure AgentConfig where
  model : String
  temperature : Option ℚ
  topP : Option ℚ
  maxTokens : Option ℚ
  prompt : Option String
deriving DecidableEq, Repr

/-- The shared state `generateResponse` reads and mutates: the singleton
response cache, the per-provider rate limiters, and the per-model breakers
of `CircuitBreakerManager`. -/
structure LLMServiceState where
  cache : CacheService
  rateLimiters : List (String × RateLimiter)
  breakers : List (String × CircuitBreaker)
deriving DecidableEq, Repr

/-- `generateResponse(agentConfig, messages, apiKey, options)`: resolve the
model config, prepend the system prompt, then run under the per-model
circuit breaker: rate-limit check, context-window check, and the adapter
under bounded retry; when the breaker is open, recurse into the fallback
model (bounded by `fuel`). Returns the result, the mutated service state,
and the next oracle index (its advance counts adapter invocations). -/
def generateResponse : ℕ → LLMServiceState → AgentConfig →
    List (String × String) → ℕ → (ℕ → AdapterOutcome) → ℕ →
    Except GenError String × LLMServiceState × ℕ
  | 0, st, _, _, _, _, idx => (.error .fuelExhausted, st, idx)
  | fuel + 1, st, cfgA, messages, now, oracle, idx =>
    match jsMapGet MODEL_CONFIGS cfgA.model with
    | none => (.error .modelNotSupported, st, idx)
    | some mc =>
      let fullMessages := match cfgA.prompt with
        | some p => ("system", p) :: messages
        | none => messages
      let bcfg : BreakerConfig := ⟨3, 30000, 60000⟩
      let breaker := (jsMapGet st.breakers cfgA.model).getD CircuitBreaker.init
      if breaker.state = .OPEN ∧ now < breaker.nextAttempt.getD 0 then
        match jsMapGet FALLBACK_MODELS cfgA.model with
        | some fbModel =>
          generateResponse fuel st { cfgA with model := fbModel } messages now oracle idx
        | none => (.error .circuitOpenNoFallback, st, idx)
      else
        let breaker := if breaker.state = .OPEN then { breaker with state := .HALF_OPEN } else breaker
        let rlPre := (jsMapGet st.rateLimiters mc.provider).getD (RateLimiter.mkNew 500 10 now)
        let rlStep := rlPre.checkLimit now
        let st := { st with rateLimiters := jsMapSet st.rateLimiters mc.provider rlStep.1 }
        match rlStep.2 with
        | .rejected w =>
          (.error (.rateLimited w),
           { st with breakers := jsMapSet st.breakers cfgA.model (breaker.onFailure bcfg now) },
           idx)
        | .admitted =>
          let estimated := estimateTokenCount fullMessages
          if mc.contextWindow < estimated then
            (.error (.contextWindowExceeded estimated mc.contextWindow),
             { st with breakers := jsMapSet st.breakers cfgA.model (breaker.onFailure bcfg now) },
             idx)
          else
            match retryWithBackoff oracle idx 3 with
            | (.ok content, idxNext) =>
              (.ok content,
               { st with breakers := jsMapSet st.breakers cfgA.model (breaker.onSuccess bcfg now) },
               idxNext)
            | (.error status, idxNext) =>
              (.error (.provider status),
               { st with breakers := jsMapSet st.breakers cfgA.model (breaker.onFailure bcfg now) },
               idxNext)

/-- Helper for C1: `generateResponse` never reads or writes the response
cache, on any path (including rate-limit rejection, context overflow,
provider failure, and the whole fallback recursion). -/
theorem generateResponse_cache_eq (fuel : ℕ) :
    ∀ st cfgA messages now oracle idx,
      (generateResponse fuel st cfgA messages now oracle idx).2.1.cache = st.cache := by
  induction fuel with
  | zero => intro st cfgA messages now oracle idx; rfl
  | succ fuel ih =>
    intro st cfgA messages now oracle idx
    unfold generateResponse
    cases hmc : jsMapGet MODEL_CONFIGS cfgA.model with
    | none => rfl
    | some mc =>
      dsimp only
      split
      · -- breaker open and inside the window: fallback lookup
        cases hfb : jsMapGet FALLBACK_MODELS cfgA.model with
        | none => rfl
        | some fbModel => exact ih st _ messages now oracle idx
      · -- admitted into the breaker
        rcases hrl : ((jsMapGet st.rateLimiters mc.provider).getD
            (RateLimiter.mkNew 500 10 now)).checkLimit now with ⟨rl', out⟩
        cases out with
        | rejected w => simp [hrl]
        | admitted =>
          simp only [hrl]
          split
          · rfl
          · rcases hr : retryWithBackoff oracle idx 3 with ⟨res, idxNext⟩
            cases res with
            | ok content => simp [hr]
            | error status => simp [hr]

/-- The cache contents in the C1 demonstration: the exact requested
`(model, messages, parameters)` fingerprint is present, fresh, and the
cache is enabled. -/
def demoCache : CacheService :=
  { entries := [(generateKey "gpt-4o" [("user", "hi")] none none none,
                 { response := "cached-output", timestamp := 0, lastAccess := 0,
                   model := "gpt-4o" })],
    ttl := 3600000, maxSize := 1000, enabled := true }

/-- Service state for the C1 demonstration: demo cache, a full openai
bucket, and no breaker yet (CLOSED on creation). -/
def demoState : LLMServiceState :=
  { cache := demoCache,
    rateLimiters := [("openai",
      { limit := 500, burstSize := 10, requests := [], tokens := 10,
        lastRefill := 50, refillRate := 500 / 60000 })],
    breakers := [] }

/-- The C1 demo request: supported model, no prompt, default parameters. -/
def demoAgent : AgentConfig :=
  { model := "gpt-4o", temperature := none, topP := none, maxTokens := none,
    prompt := none }

/-- C1: the response cache is never consulted by `generateResponse`. The
cache contains a fresh entry for the identical request — `CacheService.get`
would hit — yet `generateResponse` invokes the provider adapter (one oracle
index is consumed), returns the adapter's answer rather than the cached
one, and leaves the cache byte-identical (so no response is ever stored
either). The first conjunct states cache-untouched universally. -/
theorem generateResponse_never_uses_cache :
    (∀ fuel st cfgA messages now oracle idx,
        (generateResponse fuel st cfgA messages now oracle idx).2.1.cache = st.cache) ∧
    (demoCache.get "gpt-4o" [("user", "hi")] none none none 50).1 = some "cached-output" ∧
    (generateResponse 5 demoState demoAgent [("user", "hi")] 50
        (fun _ => .success "adapter-output") 0).1 = .ok "adapter-output" ∧
    (generateResponse 5 demoState demoAgent [("user", "hi")] 50
        (fun _ => .success "adapter-output") 0).2.2 = 1 ∧
    (generateResponse 5 demoState demoAgent [("user", "hi")] 50
        (fun _ => .success "adapter-output") 0).2.1.cache = demoCache ∧
    (("adapter-output" : String) == "cached-output") = false := by
  refine ⟨generateResponse_cache_eq, ?_, ?_, ?_, ?_, by decide⟩
  · decide
  all_goals
    have h5 : (5 : ℕ) = 4 + 1 := rfl
    rw [h5]
    unfold generateResponse
    norm_num [demoState, demoAgent, demoCache, jsMapGet, MODEL_CONFIGS,
      CircuitBreaker.init, RateLimiter.checkLimit, RateLimiter.mkNew,
      estimateTokenCount, retryWithBackoff, jsMapSet, CircuitBreaker.onSuccess,
      CircuitBreaker.recordRequest]
    decide

/-! ### JS string helpers (split on a character-class regex, as in
`'...'.split(/\s+/)` and `'...'.split(/[.!?]+/)`) -/

/-- JS `String.split` on a one-character-class `+` regex: maximal runs of
matching characters are single separators, and an empty leading/trailing
element appears when the string starts/ends with a separator. -/
def jsSplitRuns (p : Char → Bool) (s : String) : List String :=
  let step := fun (acc : List String × String × Bool) (c : Char) =>
    if p c then
      if acc.2.2 then acc
      else (acc.1 ++ [acc.2.1], "", true)
    else (acc.1, acc.2.1.push c, false)
  let r := s.toList.foldl step ([], "", false)
  r.1 ++ [r.2.1]

/-- JS `split(/\s+/)`. -/
def jsSplitWs (s : String) : List String :=
  jsSplitRuns Char.isWhitespace s

/-- JS `String.toLowerCase` (character-wise, which the kernel can
evaluate). -/
def jsToLower (s : String) : String := String.mk (s.toList.map Char.toLower)

/-- JS `String.trim` (drop whitespace from both ends). -/
def jsTrim (s : String) : String :=
  String.mk (((s.toList.dropWhile Char.isWhitespace).reverse.dropWhile
    Char.isWhitespace).reverse)

/-- JS `x || null` on an optional string: `undefined` and the empty string
are both falsy. -/
def jsOrNull (o : Option String) : Option String :=
  match o with
  | some s => if s = "" then none else some s
  | none => none

/-- JS `x || d` on an optional number: `undefined` and `0` are falsy. -/
def jsOrDefault (v : Option ℚ) (d : ℚ) : ℚ :=
  match v with
  | some t => if t = 0 then d else t
  | none => d

/-- JS `Math.round` (round half up). -/
def jsRound (x : ℚ) : ℤ := ⌊x + 1 / 2⌋

/-! ### Orchestration service (src/backend/orchestration-service.js) -/

/-- An agent as the strategies consume it (`type` keys the breaker and the
per-type setting overrides; the model/prompt resolution itself is inside
the per-agent closure, which the `run` oracle stands for). -/
structure Agent where
  type : String
  name : String
  model : String
  systemPrompt : Option String
deriving DecidableEq, Repr

/-- `CircuitBreakerManager.create('agent-' + agent.type, ...)`. -/
def breakerKey (a : Agent) : String := "agent-" ++ a.type

/-- The options every strategy passes to the per-agent breaker. -/
def agentBreakerConfig : BreakerConfig := ⟨3, 30000, 60000⟩

/-- One entry of the list a pipeline run returns. -/
structure StageRecord where
  agent : Agent
  input : String
  output : Option String
  error : Option String
  success : Bool
deriving DecidableEq, Repr

/-- The worker loop of `pipelineStrategy`: process agents in order, feed
each agent the previous output, record one stage per processed agent, and
stop on failure unless `breakOnError` is literally `false`
(`settings.breakOnError !== false`). The per-agent LLM call is the oracle
`run` (agent index, current input). A circuit-open rejection (no fallback
is registered by the strategies) is caught like any other per-agent
failure. -/
def pipelineGo (run : ℕ → String → Except String String)
    (breakOnError : Option Bool) (now : ℕ) :
    List Agent → ℕ → String → List (String × CircuitBreaker) →
    List StageRecord × List (String × CircuitBreaker)
  | [], _, _, breakers => ([], breakers)
  | agent :: rest, i, currentInput, breakers =>
    let b := (jsMapGet breakers (breakerKey agent)).getD CircuitBreaker.init
    if b.state = .OPEN ∧ now < b.nextAttempt.getD 0 then
      let rec0 : StageRecord :=
        { agent := agent, input := currentInput, output := none,
          error := some "circuit-open", success := false }
      if breakOnError ≠ some false then ([rec0], breakers)
      else
        let r := pipelineGo run breakOnError now rest (i + 1) currentInput breakers
        (rec0 :: r.1, r.2)
    else
      let b := if b.state = .OPEN then { b with state := .HALF_OPEN } else b
      match run i currentInput with
      | .ok content =>
        let breakers := jsMapSet breakers (breakerKey agent)
          (b.onSuccess agentBreakerConfig now)
        let rec0 : StageRecord :=
          { agent := agent, input := currentInput, output := some content,
            error := none, success := true }
        let r := pipelineGo run breakOnError now rest (i + 1) content breakers
        (rec0 :: r.1, r.2)
      | .error msg =>
        let breakers := jsMapSet breakers (breakerKey agent)
          (b.onFailure agentBreakerConfig now)
        let rec0 : StageRecord :=
          { agent := agent, input := currentInput, output := none,
            error := some msg, success := false }
        if breakOnError ≠ some false then ([rec0], breakers)
        else
          let r := pipelineGo run breakOnError now rest (i + 1) currentInput breakers
          (rec0 :: r.1, r.2)

/-- What `pipelineStrategy` returns:
`{pipeline: results, finalOutput: results[results.length - 1]?.output || null}`. -/
structure PipelineResult where
  pipeline : List StageRecord
  finalOutput : Option String
deriving DecidableEq, Repr

/-- `pipelineStrategy(agents, message, settings, ...)`. -/
def pipelineStrategy (agents : List Agent) (message : String)
    (breakOnError : Option Bool) (run : ℕ → String → Except String String)
    (breakers : List (String × CircuitBreaker)) (now : ℕ) :
    PipelineResult × List (String × CircuitBreaker) :=
  let r := pipelineGo run breakOnError now agents 0 message breakers
  ({ pipeline := r.1, finalOutput := jsOrNull ((r.1.getLast?).bind (·.output)) }, r.2)

/-- One entry of a parallel run's result list. -/
structure AgentResult where
  agent : Agent
  response : Option String
  error : Option String
  success : Bool
deriving DecidableEq, Repr

/-- The worker loop of `parallelStrategy`: one result per agent, failures
isolated (an agent's failure is caught and recorded; the loop always
continues). The concurrent dispatch is modelled as processing in agent
order, which fixes one interleaving of the per-type breaker updates. -/
def parallelGo (run : ℕ → Except String String) (now : ℕ) :
    List Agent → ℕ → List (String × CircuitBreaker) →
    List AgentResult × List (String × CircuitBreaker)
  | [], _, breakers => ([], breakers)
  | agent :: rest, i, breakers =>
    let b := (jsMapGet breakers (breakerKey agent)).getD CircuitBreaker.init
    if b.state = .OPEN ∧ now < b.nextAttempt.getD 0 then
      let rec0 : AgentResult :=
        { agent := agent, response := none, error := some "circuit-open", success := false }
      let r := parallelGo run now rest (i + 1) breakers
      (rec0 :: r.1, r.2)
    else
      let b := if b.state = .OPEN then { b with state := .HALF_OPEN } else b
      match run i with
      | .ok content =>
        let breakers := jsMapSet breakers (breakerKey agent)
          (b.onSuccess agentBreakerConfig now)
        let rec0 : AgentResult :=
          { agent := agent, response := some content, error := none, success := true }
        let r := parallelGo run now rest (i + 1) breakers
        (rec0 :: r.1, r.2)
      | .error msg =>
        let breakers := jsMapSet breakers (breakerKey agent)
          (b.onFailure agentBreakerConfig now)
        let rec0 : AgentResult :=
          { agent := agent, response := none, error := some msg, success := false }
        let r := parallelGo run now rest (i + 1) breakers
        (rec0 :: r.1, r.2)

/-- `parallelStrategy(agents, message, settings, ...)`. -/
def parallelStrategy (agents : List Agent) (run : ℕ → Except String String)
    (breakers : List (String × CircuitBreaker)) (now : ℕ) :
    List AgentResult × List (String × CircuitBreaker) :=
  parallelGo run now agents 0 breakers

/-- `summarizeResponses(responses)`. -/
structure ConsensusSummary where
  responseCount : ℕ
  totalWords : ℕ
  averageLength : ℤ
  agents : List String
deriving DecidableEq, Repr

/-- `summarizeResponses`: word statistics over the joined response texts. -/
def summarizeResponses (responses : List AgentResult) : ConsensusSummary :=
  let allText := String.intercalate "\n\n" (responses.map (fun r => r.response.getD ""))
  let wordCount := (jsSplitWs allText).length
  { responseCount := responses.length,
    totalWords := wordCount,
    averageLength := jsRound ((wordCount : ℚ) / (responses.length : ℚ)),
    agents := responses.map (fun r => r.agent.name) }

/-- What `consensusStrategy` returns on enough successes. -/
structure ConsensusData where
  responses : List AgentResult
  agreementLevel : ℚ
  summary : ConsensusSummary
deriving DecidableEq, Repr

/-- The error `consensusStrategy` throws (`Consensus not reached. Only
succeeded/total agents responded successfully`). -/
inductive OrchError
  | consensusNotReached (succeeded total : ℕ)
deriving DecidableEq, Repr

/-- `consensusStrategy(agents, message, settings, ...)`: run the parallel
strategy, and **throw** when the successful responses fall short of
`threshold × |agents|` (`settings.consensusThreshold || 0.7`); otherwise
return the consensus data (note: no `reached` field). -/
def consensusStrategy (agents : List Agent) (threshold : Option ℚ)
    (run : ℕ → Except String String)
    (breakers : List (String × CircuitBreaker)) (now : ℕ) :
    Except OrchError ConsensusData × List (String × CircuitBreaker) :=
  let thr := jsOrDefault threshold (7 / 10)
  let r := parallelStrategy agents run breakers now
  let responses := r.1
  let successfulResponses := responses.filter (fun x => x.success)
  if (successfulResponses.length : ℚ) < (agents.length : ℚ) * thr then
    (.error (.consensusNotReached successfulResponses.length agents.length), r.2)
  else
    (.ok { responses := successfulResponses,
           agreementLevel := (successfulResponses.length : ℚ) / (agents.length : ℚ),
           summary := summarizeResponses successfulResponses }, r.2)

/-! ### Consensus seeking (src/backend/unified-llm-core.js,
UnifiedOrchestrator.seekConsensus) -/

/-- `extractKeyPoints(text)`: sentences split on `/[.!?]+/` that trim to
more than 20 characters; at most three, each truncated to 100 characters. -/
def extractKeyPoints (text : String) : List String :=
  let sentences := (jsSplitRuns (fun c => c = '.' ∨ c = '!' ∨ c = '?') text).filter
    (fun s => decide (20 < (jsTrim s).length))
  (sentences.take 3).map (fun s => String.mk ((jsTrim s).toList.take 100))

/-- The successful responses (`responses.filter(r => r.success)`). -/
def validResponsesOf (responses : List AgentResult) : List AgentResult :=
  responses.filter (fun x => x.success)

/-- The normalized point-frequency table of `seekConsensus` (insertion
ordered, as JS object keys are). -/
def pointFrequencyOf (responses : List AgentResult) : List (String × ℕ) :=
  let keyPoints := (validResponsesOf responses).map
    (fun r => extractKeyPoints (r.response.getD ""))
  keyPoints.flatten.foldl
    (fun m p =>
      let normalized := jsTrim (jsToLower p)
      jsMapSet m normalized ((jsMapGet m normalized).getD 0 + 1))
    []

/-- The consensus points: normalized key points whose frequency reaches
`Math.ceil(0.6 × |validResponses|)`. -/
def consensusPointsOf (responses : List AgentResult) : List String :=
  let consensusThreshold := ⌈((validResponsesOf responses).length : ℚ) * (6 / 10)⌉
  ((pointFrequencyOf responses).filter
    (fun kv => decide (consensusThreshold ≤ (kv.2 : ℤ)))).map (fun kv => kv.1)

/-- What `seekConsensus` returns; `sharedFactAdded` records whether the
`metaMemory.addSharedFact` side effect happened. -/
structure SeekOutcome where
  reached : Bool
  statement : String
  confidence : Option ℚ
  participants : Option (List String)
  divergentPoints : Option (List String)
  sharedFactAdded : Bool
deriving DecidableEq, Repr

/-- `seekConsensus(responses, originalMessage)`: always returns a value —
`reached:false` when there are no valid responses or no consensus point;
`reached:true` (recording a shared fact) otherwise. -/
def seekConsensus (responses : List AgentResult) (_originalMessage : String) :
    SeekOutcome :=
  let validResponses := validResponsesOf responses
  if validResponses.length = 0 then
    { reached := false, statement := "No valid responses to form consensus",
      confidence := none, participants := none, divergentPoints := none,
      sharedFactAdded := false }
  else
    let keyPoints := validResponses.map (fun r => extractKeyPoints (r.response.getD ""))
    let allPoints := keyPoints.flatten
    let pointFrequency := pointFrequencyOf responses
    let consensusPoints := consensusPointsOf responses
    if consensusPoints.length ≠ 0 then
      { reached := true,
        statement := "The agents reached consensus on: " ++
          String.intercalate "; " consensusPoints,
        confidence := some ((consensusPoints.length : ℚ) / (allPoints.length : ℚ)),
        participants := some (validResponses.map (fun r => r.agent.name)),
        divergentPoints := none,
        sharedFactAdded := true }
    else
      { reached := false,
        statement := "Consensus not reached - diverse perspectives remain",
        confidence := none, participants := none,
        divergentPoints := some ((pointFrequency.map (fun kv => kv.1)).take 5),
        sharedFactAdded := false }

/-! ### C5: pipeline result shape -/

/-- Properties of the pipeline loop: one stage record per processed agent
(in declared order), and all agents are processed when `breakOnError` is
literally `false`. -/
theorem pipelineGo_shape (run : ℕ → String → Except String String)
    (bOE : Option Bool) (now : ℕ) :
    ∀ (agents : List Agent) (i : ℕ) (input : String)
      (bks : List (String × CircuitBreaker)),
      (pipelineGo run bOE now agents i input bks).1.length ≤ agents.length ∧
      (bOE = some false →
        (pipelineGo run bOE now agents i input bks).1.length = agents.length) ∧
      (pipelineGo run bOE now agents i input bks).1.map (fun r => r.agent) =
        agents.take (pipelineGo run bOE now agents i input bks).1.length := by
  intro agents
  induction agents with
  | nil => intro i input bks; simp [pipelineGo]
  | cons agent rest ih =>
    intro i input bks
    unfold pipelineGo
    dsimp only
    split
    · -- circuit open
      split
      · -- break
        rename_i hbrk
        refine ⟨Nat.succ_le_succ (Nat.zero_le _), fun hf => absurd hf hbrk, by simp⟩
      · -- continue
        refine ⟨Nat.succ_le_succ (ih _ _ _).1, ?_, ?_⟩
        · intro hf
          exact congrArg Nat.succ ((ih (i + 1) input bks).2.1 hf)
        · exact congrArg (List.cons agent) ((ih (i + 1) input bks).2.2)
    · split
      · -- success: continue with the output as the next input
        refine ⟨Nat.succ_le_succ (ih _ _ _).1, ?_, ?_⟩
        · intro hf
          exact congrArg Nat.succ ((ih _ _ _).2.1 hf)
        · exact congrArg (List.cons agent) ((ih _ _ _).2.2)
      · -- failure
        split
        · -- break
          rename_i hbrk
          refine ⟨Nat.succ_le_succ (Nat.zero_le _), fun hf => absurd hf hbrk, by simp⟩
        · -- continue
          refine ⟨Nat.succ_le_succ (ih _ _ _).1, ?_, ?_⟩
          · intro hf
            exact congrArg Nat.succ ((ih _ _ _).2.1 hf)
          · exact congrArg (List.cons agent) ((ih _ _ _).2.2)

/-- Counterexample to C5: two stages, the first succeeds with output `"x"`,
the second fails, default `breakOnError`; the claim says `finalOutput`
equals the last *successful* output `"x"`, but the code computes
`results[last]?.output || null`, which is `null` because the last recorded
stage is the failed one. -/
theorem pipeline_finalOutput_counterexample :
    ((pipelineStrategy [⟨"openai", "A", "gpt-4o", none⟩,
          ⟨"anthropic", "B", "claude-3-opus-20240229", none⟩] "abc" none
        (fun i _ => if i = 0 then .ok "x" else .error "boom") [] 0).1.pipeline.length = 2 ∧
      ((pipelineStrategy [⟨"openai", "A", "gpt-4o", none⟩,
          ⟨"anthropic", "B", "claude-3-opus-20240229", none⟩] "abc" none
        (fun i _ => if i = 0 then .ok "x" else .error "boom") [] 0).1.pipeline.get? 0).map
          (fun r => (r.success, r.output)) = some (true, some "x") ∧
      ((pipelineStrategy [⟨"openai", "A", "gpt-4o", none⟩,
          ⟨"anthropic", "B", "claude-3-opus-20240229", none⟩] "abc" none
        (fun i _ => if i = 0 then .ok "x" else .error "boom") [] 0).1.pipeline.get? 1).map
          (fun r => r.success) = some false) ∧
    ((pipelineStrategy [⟨"openai", "A", "gpt-4o", none⟩,
          ⟨"anthropic", "B", "claude-3-opus-20240229", none⟩] "abc" none
        (fun i _ => if i = 0 then .ok "x" else .error "boom") [] 0).1.finalOutput = none ∧
      ((some "x" : Option String) == none) = false) := by
  constructor
  · refine ⟨?_, ?_, ?_⟩ <;> decide
  · exact ⟨by decide, by decide⟩

/-- C5 (amended): the pipeline records exactly one stage per processed
agent in declared order (all agents when `breakOnError` is literally
`false`, a prefix otherwise), and `finalOutput` is the `output` of the
*last recorded* stage — `null` when the pipeline recorded no stage, the
last stage failed, or its output was the empty string — not the output of
the last successful stage. -/
theorem pipeline_stage_records_and_finalOutput (agents : List Agent)
    (message : String) (bOE : Option Bool)
    (run : ℕ → String → Except String String)
    (bks : List (String × CircuitBreaker)) (now : ℕ) :
    (pipelineStrategy agents message bOE run bks now).1.pipeline.length ≤ agents.length ∧
    (bOE = some false →
      (pipelineStrategy agents message bOE run bks now).1.pipeline.length = agents.length) ∧
    (pipelineStrategy agents message bOE run bks now).1.pipeline.map (fun r => r.agent) =
      agents.take (pipelineStrategy agents message bOE run bks now).1.pipeline.length ∧
    (pipelineStrategy agents message bOE run bks now).1.finalOutput =
      jsOrNull (((pipelineStrategy agents message bOE run bks now).1.pipeline.getLast?).bind
        (fun r => r.output)) := by
  have h := pipelineGo_shape run bOE now agents 0 message bks
  exact ⟨h.1, h.2.1, h.2.2, rfl⟩

/-- Witness for the amended C5 theorem: a one-agent pipeline with
`breakOnError = false` records exactly one stage. -/
theorem pipeline_stage_records_and_finalOutput_witness :
    (some false = some false → (pipelineStrategy [⟨"openai", "A", "gpt-4o", none⟩]
        "m" (some false) (fun _ _ => .ok "out") [] 0).1.pipeline.length = 1) ∧
    (pipelineStrategy [⟨"openai", "A", "gpt-4o", none⟩]
        "m" (some false) (fun _ _ => .ok "out") [] 0).1.pipeline.length = 1 :=
  ⟨fun _ => ((pipeline_stage_records_and_finalOutput
      [⟨"openai", "A", "gpt-4o", none⟩] "m" (some false)
      (fun _ _ => .ok "out") [] 0).2.1 rfl),
   (pipeline_stage_records_and_finalOutput
      [⟨"openai", "A", "gpt-4o", none⟩] "m" (some false)
      (fun _ _ => .ok "out") [] 0).2.1 rfl⟩

/-! ### C6: consensus failure semantics -/

/-- Counterexample to C6: with a single agent whose call fails,
`consensusStrategy` raises the consensus-not-reached **error** instead of
returning a `reached:false` value. -/
theorem consensusStrategy_throws_counterexample :
    (consensusStrategy [⟨"openai", "A", "gpt-4o", none⟩] none
        (fun _ => .error "boom") [] 0).1 =
      .error (.consensusNotReached 0 1) ∧
    ((consensusStrategy [⟨"openai", "A", "gpt-4o", none⟩] none
        (fun _ => .error "boom") [] 0).1.isOk) = false := by
  have hp : (parallelStrategy [⟨"openai", "A", "gpt-4o", none⟩]
      (fun _ => .error "boom") ([] : List (String × CircuitBreaker)) 0).1 =
        [⟨⟨"openai", "A", "gpt-4o", none⟩, none, some "boom", false⟩] := by decide
  have h : (consensusStrategy [⟨"openai", "A", "gpt-4o", none⟩] none
      (fun _ => .error "boom") [] 0).1 = .error (.consensusNotReached 0 1) := by
    unfold consensusStrategy
    simp only [hp]
    norm_num [jsOrDefault, List.filter]
  exact ⟨h, by rw [h]; rfl⟩

/-- C6 (amended): `OrchestrationService.consensusStrategy` signals a
consensus shortfall by **throwing** — it returns the error exactly when the
successful responses are fewer than `threshold × |agents|` — while
`UnifiedOrchestrator.seekConsensus` signals failure as a normal value:
`reached = false` exactly when there is no valid response or no consensus
point, and the shared-fact side effect happens exactly on `reached`. -/
theorem consensus_shortfall_throws_seekConsensus_returns :
    (∀ (agents : List Agent) (threshold : Option ℚ)
        (run : ℕ → Except String String)
        (bks : List (String × CircuitBreaker)) (now : ℕ),
      (consensusStrategy agents threshold run bks now).1 =
          .error (.consensusNotReached
            ((parallelStrategy agents run bks now).1.filter (fun x => x.success)).length
            agents.length) ↔
        ((((parallelStrategy agents run bks now).1.filter (fun x => x.success)).length : ℚ) <
          (agents.length : ℚ) * jsOrDefault threshold (7 / 10))) ∧
    (∀ (responses : List AgentResult) (msg : String),
      ((seekConsensus responses msg).reached = false ↔
        ((validResponsesOf responses).length = 0 ∨
          (consensusPointsOf responses).length = 0)) ∧
      (seekConsensus responses msg).sharedFactAdded = (seekConsensus responses msg).reached) := by
  constructor
  · intro agents threshold run bks now
    unfold consensusStrategy
    by_cases hc :
        ((((parallelStrategy agents run bks now).1.filter (fun x => x.success)).length : ℚ) <
          (agents.length : ℚ) * jsOrDefault threshold (7 / 10))
    · simp [hc]
    · simp [hc]
  · intro responses msg
    unfold seekConsensus
    by_cases hv : (validResponsesOf responses).length = 0
    · simp [hv]
    · by_cases hp : (consensusPointsOf responses).length = 0
      · simp [hv, hp]
      · simp [hv, hp]

/-- Witness for the amended C6 theorem: one failing agent produces zero
successes, which is below the default 0.7 threshold, so the error is
returned; and `seekConsensus` on an empty response list returns
`reached = false`. -/
theorem consensus_shortfall_throws_seekConsensus_returns_witness :
    (consensusStrategy [⟨"openai", "A", "gpt-4o", none⟩] none
        (fun _ => .error "boom") [] 0).1 =
      .error (.consensusNotReached
        (((parallelStrategy [⟨"openai", "A", "gpt-4o", none⟩]
            (fun _ => .error "boom") [] 0).1.filter (fun x => x.success)).length)
        1) ∧
    (seekConsensus [] "m").reached = false :=
  ⟨(consensus_shortfall_throws_seekConsensus_returns.1
      [⟨"openai", "A", "gpt-4o", none⟩] none (fun _ => .error "boom") [] 0).mpr
      (by
        have hp : (parallelStrategy [⟨"openai", "A", "gpt-4o", none⟩]
            (fun _ => .error "boom") ([] : List (String × CircuitBreaker)) 0).1 =
              [⟨⟨"openai", "A", "gpt-4o", none⟩, none, some "boom", false⟩] := by decide
        simp only [hp]
        norm_num [jsOrDefault, List.filter]),
   ((consensus_shortfall_throws_seekConsensus_returns.2 [] "m").1).mpr
      (Or.inl (by decide))⟩

/-! ### Model memory (src/unnamed/part_004, class ModelMemory) -/

/-- JS `String.includes(sub)` for a nonempty `sub`. -/
def jsIncludes (s sub : String) : Bool := decide (1 < (s.splitOn sub).length)

/-- JS `String.startsWith(pre)` (via character lists, which the kernel can
evaluate). -/
def jsStartsWith (s pre : String) : Bool := pre.toList.isPrefixOf s.toList

/-- A preference entry (the presentation fields `htmlTag`, `hashtags`,
`timestamp` of the source are omitted; `applyReinforcement` reads and
writes only `strength`). -/
structure PrefData where
  value : String
  strength : ℚ
  context : String
deriving DecidableEq, Repr

/-- One `reinforcement.rewards` entry. -/
structure RewardEntry where
  action : String
  reward : ℚ
  state : String
  timestamp : ℕ
deriving DecidableEq, Repr

/-- One `reinforcement.punishments` entry (`punishment = |reward|`). -/
structure PunishmentEntry where
  action : String
  punishment : ℚ
  state : String
  timestamp : ℕ
deriving DecidableEq, Repr

/-- The reinforcement-relevant state of a `ModelMemory` instance. -/
structure ModelMemory where
  agentId : String
  agentName : String
  preferences : List (String × PrefData)
  emotions : List (String × ℚ)
  rewards : List RewardEntry
  punishments : List PunishmentEntry
  qTable : List (String × ℚ)
  learningRate : ℚ
  discountFactor : ℚ
  explorationRate : ℚ
deriving DecidableEq, Repr

/-- `new ModelMemory(agentId, agentName)`: empty maps, learning rate 0.1,
discount factor 0.9, exploration rate 0.1. -/
def ModelMemory.init (agentId agentName : String) : ModelMemory :=
  { agentId := agentId, agentName := agentName, preferences := [],
    emotions := [], rewards := [], punishments := [], qTable := [],
    learningRate := 1 / 10, discountFactor := 9 / 10, explorationRate := 1 / 10 }

/-- The Q-table key `` `${state}:${action}` ``. -/
def qKey (state action : String) : String := state ++ ":" ++ action

/-- `updateQValue(state, action, reward)`: `maxNextQ` is
`Math.max(0, ...)` over the values of every entry whose key has `state` as
a **string prefix** (`k.startsWith(state)`), so it is clamped at 0 and can
pick up entries of other states whose name extends `state`. -/
def ModelMemory.updateQValue (m : ModelMemory) (state action : String)
    (reward : ℚ) : ModelMemory :=
  let key := qKey state action
  let currentQ := (jsMapGet m.qTable key).getD 0
  let nextStateActions := (m.qTable.filter (fun kv => jsStartsWith kv.1 state)).map
    (fun kv => kv.2)
  let maxNextQ := nextStateActions.foldl max 0
  let newQ := currentQ + m.learningRate * (reward + m.discountFactor * maxNextQ - currentQ)
  { m with qTable := jsMapSet m.qTable key newQ }

/-- `updateEmotion(emotion, intensity)`: clamp the boosted emotion to
`[0, 1]` and decay every other emotion by ×0.95. -/
def ModelMemory.updateEmotion (m : ModelMemory) (emotion : String)
    (intensity : ℚ) : ModelMemory :=
  let current := (jsMapGet m.emotions emotion).getD 0
  let updated := max 0 (min 1 (current + intensity))
  let es := jsMapSet m.emotions emotion updated
  { m with emotions := es.map (fun kv => if kv.1 = emotion then kv else (kv.1, kv.2 * (95 / 100))) }

/-- `applyReinforcement(action, reward, state = 'default')`: log the reward
or punishment, bump a referenced preference's strength on positive reward,
apply the Q-learning update, and boost satisfaction/frustration by
`0.5 × |reward|`. -/
def ModelMemory.applyReinforcement (m : ModelMemory) (action : String)
    (reward : ℚ) (state : String) (timestamp : ℕ) : ModelMemory :=
  let m :=
    if 0 < reward then
      let m := { m with rewards := m.rewards ++ [(⟨action, reward, state, timestamp⟩ : RewardEntry)] }
      if jsIncludes action "preference:" then
        let pref := (action.splitOn ":").getD 1 ""
        match jsMapGet m.preferences pref with
        | some current =>
          let upd := { current with strength := min 1 (current.strength + reward * m.learningRate) }
          { m with preferences := jsMapSet m.preferences pref upd }
        | none => m
      else m
    else
      { m with punishments := m.punishments ++ [(⟨action, |reward|, state, timestamp⟩ : PunishmentEntry)] }
  let m := m.updateQValue state action reward
  m.updateEmotion (if 0 < reward then "satisfaction" else "frustration") (|reward| * (1 / 2))

/-- Exploitation scan of `selectAction`: `bestValue` starts at `-Infinity`
(`⊥` in `WithBot ℚ`); a missing Q-entry counts as 0; strictly greater
values win, ties keep the earlier action. -/
def ModelMemory.selectBest (m : ModelMemory) (state : String) :
    List String → String → WithBot ℚ → String
  | [], best, _ => best
  | a :: rest, best, bestValue =>
    let qValue : ℚ := (jsMapGet m.qTable (qKey state a)).getD 0
    if bestValue < (qValue : WithBot ℚ) then m.selectBest state rest a qValue
    else m.selectBest state rest best bestValue

/-- `selectAction(state, availableActions)`: epsilon-greedy. The two
`Math.random()` draws are the oracle arguments: explore when
`rand1 < explorationRate`, picking index `⌊rand2 × n⌋`; otherwise pick the
argmax starting from `availableActions[0]`. `none` models the `undefined`
a JS caller would get for an empty action list. -/
def ModelMemory.selectAction (m : ModelMemory) (state : String)
    (availableActions : List String) (rand1 rand2 : ℚ) : Option String :=
  if rand1 < m.explorationRate then
    availableActions[Int.toNat ⌊rand2 * (availableActions.length : ℚ)⌋]?
  else
    match availableActions with
    | [] => none
    | a0 :: _ => some (m.selectBest state availableActions a0 ⊥)

/-! ### C7: Q-learning update -/

/-- `applyReinforcement` touches the Q-table only through `updateQValue`
(which reads only `qTable`, `learningRate`, `discountFactor`, all untouched
by the log and preference updates). -/
theorem applyReinforcement_qTable_eq (m : ModelMemory) (action : String)
    (reward : ℚ) (state : String) (ts : ℕ) :
    (m.applyReinforcement action reward state ts).qTable =
      (m.updateQValue state action reward).qTable := by
  unfold ModelMemory.applyReinforcement
  dsimp only
  repeat' split
  all_goals rfl


/-- `applyReinforcement` never changes the learning parameters. -/
theorem applyReinforcement_params_eq (m : ModelMemory) (action : String)
    (reward : ℚ) (state : String) (ts : ℕ) :
    (m.applyReinforcement action reward state ts).learningRate = m.learningRate ∧
    (m.applyReinforcement action reward state ts).discountFactor = m.discountFactor := by
  unfold ModelMemory.applyReinforcement
  dsimp only
  constructor <;> (repeat' split) <;> rfl

/-- The Q-entry written by `updateQValue`. -/
theorem updateQValue_lookup (m : ModelMemory) (state action : String)
    (reward : ℚ) :
    jsMapGet (m.updateQValue state action reward).qTable (qKey state action) =
      some ((jsMapGet m.qTable (qKey state action)).getD 0 +
        m.learningRate * (reward + m.discountFactor *
          (((m.qTable.filter (fun kv => jsStartsWith kv.1 state)).map (fun kv => kv.2)).foldl max 0) -
          (jsMapGet m.qTable (qKey state action)).getD 0)) := by
  unfold ModelMemory.updateQValue
  exact jsMapGet_jsMapSet_self _ _ _

/-- The `maxNextQ` of the claim's words: the maximum Q-value over the
actions recorded for the given state (keys of the form `state:action`),
taken as 0 when there are none — no clamping at 0. -/
def specMaxNextQ (qTable : List (String × ℚ)) (state : String) : ℚ :=
  match (qTable.filter (fun kv => jsStartsWith kv.1 (state ++ ":"))).map (fun kv => kv.2) with
  | [] => 0
  | v :: vs => vs.foldl max v

/-- The agent state after one punished and one rewarded reinforcement of
the same `(state, action)` pair. -/
def m1cex : ModelMemory :=
  (ModelMemory.init "agent1" "A").applyReinforcement "a" (-10) "s" 0

/-- Second reinforcement on the same pair. -/
def m2cex : ModelMemory := m1cex.applyReinforcement "a" 1 "s" 0

/-- The Q-table after the first reinforcement of the counterexample. -/
theorem m1cex_qTable : m1cex.qTable = [(qKey "s" "a", (-1 : ℚ))] := by
  show ((ModelMemory.init "agent1" "A").applyReinforcement "a" (-10) "s" 0).qTable = _
  rw [applyReinforcement_qTable_eq]
  unfold ModelMemory.updateQValue ModelMemory.init
  simp [jsMapGet, jsMapSet]

/-- Counterexample to C7: after `applyReinforcement("a", -10, "s")` the
entry is −1; the claim's formula (with `maxNextQ` the maximum over the
recorded actions of state `s`, here −1) predicts −0.89 for the next update
`applyReinforcement("a", 1, "s")`, but the code — whose `maxNextQ` is
clamped at 0 by `Math.max(0, ...)` — stores −0.8. -/
theorem applyReinforcement_counterexample :
    jsMapGet m1cex.qTable (qKey "s" "a") = some (-1) ∧
    specMaxNextQ m1cex.qTable "s" = -1 ∧
    (-1 : ℚ) + (1 / 10) * (1 + (9 / 10) * specMaxNextQ m1cex.qTable "s" - (-1)) = -89 / 100 ∧
    jsMapGet m2cex.qTable (qKey "s" "a") = some (-4 / 5) ∧
    (-89 / 100 : ℚ) < -4 / 5 := by
  have hsw : jsStartsWith (qKey "s" "a") "s" = true := by decide
  have h1 : jsMapGet m1cex.qTable (qKey "s" "a") = some (-1) := by
    rw [m1cex_qTable]; simp [jsMapGet]
  have hspec : specMaxNextQ m1cex.qTable "s" = -1 := by
    rw [m1cex_qTable]
    rfl
  refine ⟨h1, hspec, by rw [hspec]; norm_num, ?_, by norm_num⟩
  show jsMapGet (m1cex.applyReinforcement "a" 1 "s" 0).qTable (qKey "s" "a") = _
  rw [applyReinforcement_qTable_eq, updateQValue_lookup, h1, m1cex_qTable]
  have hlr : m1cex.learningRate = 1 / 10 :=
    (applyReinforcement_params_eq _ _ _ _ _).1
  have hdf : m1cex.discountFactor = 9 / 10 :=
    (applyReinforcement_params_eq _ _ _ _ _).2
  rw [hlr, hdf]
  simp [List.filter, hsw]
  norm_num

/-- C7 (amended): the Q-entry written for `(state, action)` is
`oldQ + learningRate × (reward + discountFactor × maxNextQ − oldQ)`, where
`maxNextQ = Math.max(0, values of every entry whose key has the state
string as a prefix)` — clamped at 0, and matching keys by string prefix
rather than exact state; on a fresh agent (empty Q-table) a single
`applyReinforcement(a, r, s)` leaves exactly `learningRate × r`. -/
theorem applyReinforcement_q_update (m : ModelMemory) (action : String)
    (reward : ℚ) (state : String) (ts : ℕ) :
    (jsMapGet (m.applyReinforcement action reward state ts).qTable (qKey state action) =
      some ((jsMapGet m.qTable (qKey state action)).getD 0 +
        m.learningRate * (reward + m.discountFactor *
          (((m.qTable.filter (fun kv => jsStartsWith kv.1 state)).map (fun kv => kv.2)).foldl max 0) -
          (jsMapGet m.qTable (qKey state action)).getD 0))) ∧
    (m.qTable = [] →
      jsMapGet (m.applyReinforcement action reward state ts).qTable (qKey state action) =
        some (m.learningRate * reward)) := by
  have h : jsMapGet (m.applyReinforcement action reward state ts).qTable (qKey state action) =
      some ((jsMapGet m.qTable (qKey state action)).getD 0 +
        m.learningRate * (reward + m.discountFactor *
          (((m.qTable.filter (fun kv => jsStartsWith kv.1 state)).map (fun kv => kv.2)).foldl max 0) -
          (jsMapGet m.qTable (qKey state action)).getD 0)) := by
    rw [applyReinforcement_qTable_eq]
    exact updateQValue_lookup m state action reward
  refine ⟨h, fun hempty => ?_⟩
  rw [h, hempty]
  simp [jsMapGet]

/-- Witness for the amended C7 theorem: one reinforcement on a fresh agent
writes `learningRate × reward`. -/
theorem applyReinforcement_q_update_witness :
    (ModelMemory.init "x" "X").qTable = [] ∧
    jsMapGet (((ModelMemory.init "x" "X").applyReinforcement "a" 2 "s" 0).qTable)
        (qKey "s" "a") = some ((ModelMemory.init "x" "X").learningRate * 2) :=
  ⟨rfl, (applyReinforcement_q_update (ModelMemory.init "x" "X") "a" 2 "s" 0).2 rfl⟩

/-! ### C10: selectAction stays within the available actions -/

/-- The exploitation scan returns either a scanned action or the incoming
candidate. -/
theorem selectBest_mem (m : ModelMemory) (state : String) :
    ∀ (l : List String) (best : String) (bv : WithBot ℚ),
      m.selectBest state l best bv ∈ l ∨ m.selectBest state l best bv = best := by
  intro l
  induction l with
  | nil => intro best bv; right; rfl
  | cons a rest ih =>
    intro best bv
    unfold ModelMemory.selectBest
    dsimp only
    split
    · rcases ih a _ with h | h
      · exact Or.inl (List.mem_cons_of_mem a h)
      · exact Or.inl (by rw [h]; exact List.mem_cons_self a rest)
    · rcases ih best bv with h | h
      · exact Or.inl (List.mem_cons_of_mem a h)
      · exact Or.inr h

/-- C10: with a non-empty action list, `selectAction` returns one of the
available actions — in the exploration branch (any random draw in `[0,1)`)
and in the exploitation branch (argmax seeded with the first action, even
on an empty Q-table). -/
theorem selectAction_returns_available (m : ModelMemory) (state : String)
    (acts : List String) (rand1 rand2 : ℚ)
    (hne : acts ≠ []) (h0 : 0 ≤ rand2) (h1 : rand2 < 1) :
    ∃ a ∈ acts, m.selectAction state acts rand1 rand2 = some a := by
  unfold ModelMemory.selectAction
  by_cases hex : rand1 < m.explorationRate
  · simp only [hex, if_true]
    have hlen : 0 < acts.length := List.length_pos.mpr hne
    have hlenQ : (0 : ℚ) < (acts.length : ℚ) := by exact_mod_cast hlen
    have hfl0 : 0 ≤ ⌊rand2 * (acts.length : ℚ)⌋ :=
      Int.floor_nonneg.mpr (mul_nonneg h0 (le_of_lt hlenQ))
    have hflUB : ⌊rand2 * (acts.length : ℚ)⌋ < (acts.length : ℤ) := by
      apply Int.floor_lt.mpr
      push_cast
      calc rand2 * (acts.length : ℚ) < 1 * (acts.length : ℚ) :=
            mul_lt_mul_of_pos_right h1 hlenQ
        _ = (acts.length : ℚ) := one_mul _
    have hidx : Int.toNat ⌊rand2 * (acts.length : ℚ)⌋ < acts.length := by omega
    refine ⟨acts[Int.toNat ⌊rand2 * (acts.length : ℚ)⌋], ?_, ?_⟩
    · exact List.getElem_mem hidx
    · exact List.getElem?_eq_getElem hidx
  · simp only [hex, if_false]
    match acts, hne with
    | a0 :: rest, _ =>
      rcases selectBest_mem m state (a0 :: rest) a0 ⊥ with h | h
      · exact ⟨_, h, rfl⟩
      · refine ⟨a0, List.mem_cons_self a0 rest, ?_⟩
        show some (m.selectBest state (a0 :: rest) a0 ⊥) = some a0
        rw [h]

/-- Witness for the C10 theorem: the exploitation branch on a two-action
list with an empty Q-table. -/
theorem selectAction_returns_available_witness :
    ∃ a ∈ (["a", "b"] : List String),
      (ModelMemory.init "x" "X").selectAction "s" ["a", "b"] 1 0 = some a :=
  selectAction_returns_available (ModelMemory.init "x" "X") "s" ["a", "b"] 1 0
    (by decide) (by norm_num) (by norm_num)

/-! ### Conversation memory (src/unnamed/part_004, class ConversationMemory) -/

/-- JS `\w` (`[A-Za-z0-9_]`). -/
def isWordChar (c : Char) : Bool := c.isAlpha || c.isDigit || c = '_'

/-- Deduplication as `[...new Set(xs)]`: keep first occurrences, in order. -/
def jsDedup {α : Type} [DecidableEq α] (l : List α) : List α :=
  l.foldl (fun acc x => if x ∈ acc then acc else acc ++ [x]) []

/-- `message.replace(/[^a-z0-9]/g, '')` (the words are lower-cased before
this runs). -/
def stripNonAlnum (s : String) : String :=
  String.mk (s.toList.filter (fun c => c.isLower || c.isDigit))

/-- The keyword list of `extractTopics`. -/
def topicKeywords : List String :=
  ["about", "regarding", "concerning", "discuss", "explore", "think"]

/-- The keyword pass of `extractTopics`: for each keyword, the (stripped)
word following its first occurrence. -/
def keywordTopicsOf (message : String) : List String :=
  let words := jsSplitWs (jsToLower message)
  topicKeywords.foldl
    (fun acc keyword =>
      match words.findIdx? (fun w => w == keyword) with
      | some idx =>
        if idx < words.length - 1 then acc ++ [stripNonAlnum (words.getD (idx + 1) "")]
        else acc
      | none => acc)
    []

/-- Matcher of `/\b[A-Z][a-z]+ [A-Z][a-z]+\b/` at the head of the
character list (the leading `\b` is the caller's duty): an upper-case
letter, one or more lower-case letters, a space, again upper then lowers,
followed by a word boundary. Returns the match and the rest. -/
def matchNounPhrase : List Char → Option (String × List Char)
  | [] => none
  | c0 :: cs =>
    if c0.isUpper then
      let s1 := cs.span (fun c => c.isLower)
      if s1.1.length ≠ 0 then
        match s1.2 with
        | ' ' :: c2 :: cs2 =>
          if c2.isUpper then
            let s2 := cs2.span (fun c => c.isLower)
            if s2.1.length ≠ 0 ∧
                (match s2.2 with | [] => true | c3 :: _ => ! isWordChar c3) = true then
              some (String.mk (c0 :: s1.1 ++ ' ' :: c2 :: s2.1), s2.2)
            else none
          else none
        | _ => none
      else none
    else none

/-- Global scan of `/\b[A-Z][a-z]+ [A-Z][a-z]+\b/g`: left to right,
non-overlapping; a match may start only at a word boundary (`prev` is the
previous character). Every match ends in a lower-case letter, so scanning
resumes with a word-character sentinel as `prev`. -/
def scanNounPhrases : ℕ → Option Char → List Char → List String
  | 0, _, _ => []
  | _ + 1, _, [] => []
  | fuel + 1, prev, c :: cs =>
    let boundaryOk := match prev with
      | none => true
      | some p => ¬ isWordChar p
    if boundaryOk then
      match matchNounPhrase (c :: cs) with
      | some (np, rest) => np :: scanNounPhrases fuel (some 'a') rest
      | none => scanNounPhrases fuel (some c) cs
    else scanNounPhrases fuel (some c) cs

/-- `extractTopics(message)`: keyword-following words plus capitalized
bigrams (lower-cased, space replaced by underscore), deduplicated. -/
def extractTopics (message : String) : List String :=
  let nounPhrases := (scanNounPhrases (message.toList.length + 1) none message.toList).map
    (fun np => String.mk ((jsToLower np).toList.map (fun c => if c = ' ' then '_' else c)))
  jsDedup (keywordTopicsOf message ++ nounPhrases)

/-- Global scan of `/#\w+/g`: a `#` followed by at least one word
character. -/
def scanHashtags : ℕ → List Char → List String
  | 0, _ => []
  | _ + 1, [] => []
  | fuel + 1, c :: cs =>
    if c = '#' then
      let s := cs.span isWordChar
      if s.1.length ≠ 0 then String.mk ('#' :: s.1) :: scanHashtags fuel s.2
      else scanHashtags fuel cs
    else scanHashtags fuel cs

/-- `extractHashtags(text)`: the `#word` matches, lower-cased. -/
def extractHashtags (text : String) : List String :=
  (scanHashtags (text.toList.length + 1) text.toList).map (fun tag => jsToLower tag)

/-- One `topics` map entry: `{discussed, consensus, depth, firstMention,
lastMention}`. -/
structure TopicData where
  discussed : ℕ
  consensus : Bool
  depth : ℚ
  firstMention : ℕ
  lastMention : ℕ
deriving DecidableEq, Repr

/-- One `participants` map entry (the `sentiments` list of the source is
never read and omitted). -/
structure ParticipantData where
  messageCount : ℕ
  topics : List String
  hashtags : List String
deriving DecidableEq, Repr

/-- One timeline event (the `metadata` passthrough and the `htmlStructure`
presentation string of the source are omitted). -/
structure TimelineEvent where
  timestamp : ℕ
  agentId : String
  message : String
  hashtags : List String
  topics : List String
deriving DecidableEq, Repr

/-- The per-session conversation memory. -/
structure ConversationMemory where
  sessionId : String
  participants : List (String × ParticipantData)
  topics : List (String × TopicData)
  timeline : List TimelineEvent
  avoidedTopics : List String
  contextWindow : List TimelineEvent
deriving DecidableEq, Repr

/-- `new ConversationMemory(sessionId)`. -/
def ConversationMemory.mkNew (sessionId : String) : ConversationMemory :=
  { sessionId := sessionId, participants := [], topics := [], timeline := [],
    avoidedTopics := [], contextWindow := [] }

/-- `addMessage(agentId, message)`: extract hashtags and topics, update the
participant entry, bump each topic (`discussed++`,
`depth = min(5, depth + 0.2)`, `lastMention = now`; fresh topics start at
`{discussed: 1, depth: 1}`), append to the timeline and the 20-bounded
context window, then add to `avoidedTopics` every topic with
`discussed > 5 && depth > 3`. -/
def ConversationMemory.addMessage (cm : ConversationMemory)
    (agentId message : String) (timestamp : ℕ) : ConversationMemory :=
  let hashtags := extractHashtags message
  let topics := extractTopics message
  let pdata := (jsMapGet cm.participants agentId).getD ⟨0, [], []⟩
  let pdata : ParticipantData :=
    { messageCount := pdata.messageCount + 1,
      topics := topics.foldl jsSetAdd pdata.topics,
      hashtags := hashtags.foldl jsSetAdd pdata.hashtags }
  let participants := jsMapSet cm.participants agentId pdata
  let tmap := topics.foldl
    (fun tm topic =>
      match jsMapGet tm topic with
      | none => jsMapSet tm topic ⟨1, false, 1, timestamp, timestamp⟩
      | some td => jsMapSet tm topic
          { td with discussed := td.discussed + 1, lastMention := timestamp,
                    depth := min 5 (td.depth + 1 / 5) })
    cm.topics
  let event : TimelineEvent := ⟨timestamp, agentId, message, hashtags, topics⟩
  let timeline := cm.timeline ++ [event]
  let cw := cm.contextWindow ++ [event]
  let cw := if 20 < cw.length then cw.drop 1 else cw
  let avoided := tmap.foldl
    (fun av kv => if 5 < kv.2.discussed ∧ 3 < kv.2.depth then jsSetAdd av kv.1 else av)
    cm.avoidedTopics
  { cm with participants := participants, topics := tmap, timeline := timeline,
            contextWindow := cw, avoidedTopics := avoided }

/-! ### C8: avoided-topic set -/

/-- The avoid-update fold of `addMessage` only ever adds topics. -/
theorem mem_avoidFold (l : List (String × TopicData)) (av : List String)
    (t : String) (h : t ∈ av) :
    t ∈ l.foldl
      (fun av kv => if 5 < kv.2.discussed ∧ 3 < kv.2.depth then jsSetAdd av kv.1 else av)
      av := by
  induction l generalizing av with
  | nil => exact h
  | cons kv rest ih =>
    simp only [List.foldl_cons]
    by_cases hc : 5 < kv.2.discussed ∧ 3 < kv.2.depth
    · simp only [hc, if_true]
      exact ih _ (mem_jsSetAdd _ _ _ h)
    · simp only [hc, if_false]
      exact ih _ h

/-- Every topic entry that satisfies the avoid condition ends up in the
avoid-update fold's result. -/
theorem mem_avoidFold_of_entry (l : List (String × TopicData)) (av : List String)
    (t : String) (td : TopicData) (hmem : (t, td) ∈ l)
    (h5 : 5 < td.discussed) (h3 : 3 < td.depth) :
    t ∈ l.foldl
      (fun av kv => if 5 < kv.2.discussed ∧ 3 < kv.2.depth then jsSetAdd av kv.1 else av)
      av := by
  induction l generalizing av with
  | nil => cases hmem
  | cons kv rest ih =>
    rcases List.mem_cons.mp hmem with heq | htail
    · simp only [List.foldl_cons, ← heq, h5, h3, and_self, if_true]
      exact mem_avoidFold rest _ t (self_mem_jsSetAdd av t)
    · simp only [List.foldl_cons]
      exact ih _ htail

/-- A successful association-list lookup exhibits a member. -/
theorem jsMapGet_some_mem {α β : Type} [DecidableEq α]
    (l : List (α × β)) (k : α) (v : β) (h : jsMapGet l k = some v) : (k, v) ∈ l := by
  induction l with
  | nil => simp [jsMapGet] at h
  | cons kv rest ih =>
    unfold jsMapGet at h
    by_cases hk : kv.1 = k
    · simp only [hk, if_true, Option.some.injEq] at h
      exact List.mem_cons.mpr (Or.inl (by rw [← hk, ← h]))
    · simp only [hk, if_false] at h
      exact List.mem_cons.mpr (Or.inr (ih h))

/-- A single `addMessage` never removes an avoided topic. -/
theorem addMessage_avoided_mono (cm : ConversationMemory)
    (agentId message : String) (ts : ℕ) (t : String)
    (h : t ∈ cm.avoidedTopics) :
    t ∈ (cm.addMessage agentId message ts).avoidedTopics := by
  unfold ConversationMemory.addMessage
  dsimp only
  exact mem_avoidFold _ _ _ h

/-- C8: over any sequence of `addMessage` calls the `avoidedTopics` set
only grows — a topic once avoided stays avoided — and after each
`addMessage` every topic whose `discussed` count exceeds 5 and whose
`depth` exceeds 3 is in the set. -/
theorem avoidedTopics_monotone_and_complete :
    (∀ (cm : ConversationMemory) (calls : List (String × String × ℕ)) (t : String),
      t ∈ cm.avoidedTopics →
      t ∈ (calls.foldl (fun c args => c.addMessage args.1 args.2.1 args.2.2) cm).avoidedTopics) ∧
    (∀ (cm : ConversationMemory) (agentId message : String) (ts : ℕ)
        (t : String) (td : TopicData),
      jsMapGet (cm.addMessage agentId message ts).topics t = some td →
      5 < td.discussed → 3 < td.depth →
      t ∈ (cm.addMessage agentId message ts).avoidedTopics) := by
  constructor
  · intro cm calls
    induction calls generalizing cm with
    | nil => intro t h; exact h
    | cons c rest ih =>
      intro t h
      simp only [List.foldl_cons]
      exact ih _ t (addMessage_avoided_mono cm c.1 c.2.1 c.2.2 t h)
  · intro cm agentId message ts t td hlook h5 h3
    have hmem : (t, td) ∈ (cm.addMessage agentId message ts).topics :=
      jsMapGet_some_mem _ _ _ hlook
    unfold ConversationMemory.addMessage at hmem ⊢
    dsimp only at hmem ⊢
    exact mem_avoidFold_of_entry _ _ _ _ hmem h5 h3

/-- Witness for the C8 theorem: a preloaded topic with `discussed = 6`,
`depth = 4` enters the avoided set on the next `addMessage`, and an
already-avoided topic survives a call sequence. -/
theorem avoidedTopics_monotone_and_complete_witness :
    jsMapGet ((ConversationMemory.addMessage
        { sessionId := "s", participants := [],
          topics := [("agile", ⟨6, false, 4, 0, 0⟩)], timeline := [],
          avoidedTopics := [], contextWindow := [] } "a" "" 1).topics) "agile" =
      some ⟨6, false, 4, 0, 0⟩ ∧
    (5 < 6 ∧ (3 : ℚ) < 4) ∧
    "agile" ∈ (ConversationMemory.addMessage
        { sessionId := "s", participants := [],
          topics := [("agile", ⟨6, false, 4, 0, 0⟩)], timeline := [],
          avoidedTopics := [], contextWindow := [] } "a" "" 1).avoidedTopics ∧
    "x" ∈ (([("a", "m", 0)] : List (String × String × ℕ)).foldl
        (fun (c : ConversationMemory) (args : String × String × ℕ) =>
          c.addMessage args.1 args.2.1 args.2.2)
        { sessionId := "s", participants := [], topics := [], timeline := [],
          avoidedTopics := ["x"], contextWindow := [] }).avoidedTopics :=
  ⟨rfl, ⟨by decide, by norm_num⟩,
   avoidedTopics_monotone_and_complete.2
     { sessionId := "s", participants := [],
       topics := [("agile", ⟨6, false, 4, 0, 0⟩)], timeline := [],
       avoidedTopics := [], contextWindow := [] } "a" "" 1 "agile" ⟨6, false, 4, 0, 0⟩
     rfl (by decide) (by norm_num),
   avoidedTopics_monotone_and_complete.1
     { sessionId := "s", participants := [], topics := [], timeline := [],
       avoidedTopics := ["x"], contextWindow := [] } [("a", "m", 0)] "x"
     (by decide)⟩

/-! ### WebSocket gateway (src/backend/websocket-service.js) -/

/-- The `connected` welcome payload `handleConnection` sends. The source
sends `{type, userId, agents, message}` only; `isReconnection` is an
`Option` to make its absence (`none`) expressible. -/
structure ConnectedEvent where
  type : String
  userId : String
  agents : List String
  message : String
  isReconnection : Option Bool
deriving DecidableEq, Repr

/-- The gateway state read by `handleConnection`: the `userId → connection`
map and the configured agent ids; connections are numbered. -/
structure WebSocketServiceState where
  clients : List (String × ℕ)
  agents : List String
deriving DecidableEq, Repr

/-- `handleConnection(ws, userId)`: store (or overwrite) the client entry
and send the welcome event. No check of a pre-existing `userId` is made,
no `isReconnection` field is sent, and no session set is transferred. -/
def handleConnection (st : WebSocketServiceState) (userId : String) (ws : ℕ) :
    WebSocketServiceState × ConnectedEvent :=
  ({ st with clients := jsMapSet st.clients userId ws },
   { type := "connected", userId := userId, agents := st.agents,
     message := "Connected to AXON system", isReconnection := none })

/-- C9: the `connected` event never carries `isReconnection` — in
particular not when the presented `userId` is already in the connection
map (the concrete reconnecting client `u1`), where the claim requires
`isReconnection: true`. The repository's own test
(src/unnamed/part_009) checks for this field. -/
theorem handleConnection_never_sets_isReconnection :
    (∀ (st : WebSocketServiceState) (userId : String) (ws : ℕ),
      (handleConnection st userId ws).2.isReconnection = none ∧
      (handleConnection st userId ws).2.type = "connected") ∧
    (jsMapGet ({ clients := [("u1", 1)], agents := ["explorer"] } :
        WebSocketServiceState).clients "u1" = some 1 ∧
      (handleConnection { clients := [("u1", 1)], agents := ["explorer"] } "u1" 2).2.isReconnection
        = none ∧
      (((handleConnection { clients := [("u1", 1)], agents := ["explorer"] } "u1" 2).2.isReconnection
        == some true) = false)) :=
  ⟨fun _ _ _ => ⟨rfl, rfl⟩, by decide, rfl, rfl⟩

end Axon
